import Mathlib

/-!
A shallow embedding of the campaign dispatch worker
(`workers/campaignWorker.js`): the template renderer, the stuck-work
reviver, the transactional claim engine, the per-campaign send loop and
the orchestrator tick, together with proofs of the behavioural
properties stated in the specification.

Modelling conventions:
* timestamps are natural numbers (milliseconds since the epoch);
* the persisted dispatch table is a `List Dispatch`;
* JavaScript `null`/`undefined` fields are `Option` values;
* the Prisma store is a `Store` whose `failure` field models a
  connectivity / transaction error raised by any write (used for the
  try/catch in `reviveStuckProcessing`);
* campaign statuses are open-ended strings (the code compares with
  string literals), dispatch statuses are the closed enum
  pending/processing/sent/failed.
-/

/-- Dispatch status: the closed lifecycle enum of `campaignDispatch.status`. -/
inductive DStatus where
  | pending
  | processing
  | sent
  | failed
deriving DecidableEq, Repr

/-- One `campaignDispatch` row. -/
structure Dispatch where
  id : Nat
  campaignId : Nat
  sessionName : String
  contact : String
  messageOrder : Nat
  message : String
  status : DStatus
  scheduledAt : Option Nat
  error : Option String
  createdAt : Nat
  updatedAt : Nat
deriving DecidableEq, Repr

/-- One `segmentContact` row (the fields selected by the claim engine). -/
structure SegmentContact where
  phone : String
  name : Option String
  email : Option String
  empresa : Option String
deriving DecidableEq, Repr

/-- The fields of the `campaing` row read by `processCampaign`. -/
structure Campaign where
  delay : Option Nat
  contactDelay : Option Nat
  status : String
deriving DecidableEq, Repr

/-- The store: the dispatch table plus an optional pending connectivity
error (`failure = some e` makes the next write throw `e`, modelling a
Prisma error). -/
structure Store where
  rows : List Dispatch
  failure : Option String
deriving DecidableEq, Repr

/-! ## Template rendering (`renderTemplate`) -/

/-- A character matched by the regex class `\w`. -/
def isWordChar (c : Char) : Bool :=
  c.isAlphanum || c = '_'

/-- A character matched by the regex class `\s` (ASCII whitespace). -/
def isSpaceChar (c : Char) : Bool :=
  c = ' ' || c = '\t' || c = '\n' || c = '\r' || c = '\x0b' || c = '\x0c'

/-- Try to match the placeholder regex (open brace twice, optional
whitespace, a nonempty word, optional whitespace, close brace twice) at
the head of the character list; on success return the captured key and
the remainder of the input. -/
def tryMatch : List Char → Option (String × List Char)
  | '\x7b' :: '\x7b' :: rest =>
    let afterWs := rest.dropWhile isSpaceChar
    let word := afterWs.takeWhile isWordChar
    let afterWord := afterWs.dropWhile isWordChar
    let afterWs2 := afterWord.dropWhile isSpaceChar
    if word.isEmpty then none
    else
      match afterWs2 with
      | '\x7d' :: '\x7d' :: rest2 => some (String.mk word, rest2)
      | _ => none
  | _ => none

/-- Left-to-right single-pass replacement, as JavaScript
`String.replace` with a global regex: at each position try the
placeholder match; on success emit the replacement (the substituted text
is not rescanned, so substitution is not recursive) and continue after
the match, otherwise keep the character. Fuel bounds the recursion by
the input length. -/
def renderAux (lookup : String → String) : Nat → List Char → List Char
  | 0, l => l
  | _ + 1, [] => []
  | fuel + 1, c :: rest =>
    match tryMatch (c :: rest) with
    | some (key, rest2) => (lookup key).data ++ renderAux lookup fuel rest2
    | none => c :: renderAux lookup fuel rest

/-- `renderTemplate(text, contactData)`: empty (falsy) text renders to
the empty string; otherwise every placeholder is replaced by
`contactData[key] ?? ''`. -/
def renderTemplate (text : String) (contactData : String → Option String) : String :=
  if text = "" then ""
  else String.mk (renderAux (fun k => (contactData k).getD "") text.data.length text.data)

/-- The call-site object passed to `renderTemplate` by the send loop:
keys `nome`, `email`, `empresa` mapped to the optional contact profile
fields `name`, `email`, `empresa`; any other key is absent. -/
def mappedContactData (cd : Option SegmentContact) : String → Option String :=
  fun k =>
    if k = "nome" then cd.bind (fun c => c.name)
    else if k = "email" then cd.bind (fun c => c.email)
    else if k = "empresa" then cd.bind (fun c => c.empresa)
    else none

/-- The profile used by the specification's round-trip example. -/
def anaProfile : SegmentContact :=
  { phone := "5511999999999", name := some "Ana", email := some "a@x.com", empresa := none }

/-! ## The reviver (`reviveStuckProcessing`) -/

/-- The row transformation of the reviver's `updateMany`: a row in
`processing` whose `updatedAt` is strictly before the cutoff goes back
to `pending`; any other row is untouched. -/
def reviveUpdateRow (cutoff : Nat) (d : Dispatch) : Dispatch :=
  if d.status = DStatus.processing ∧ d.updatedAt < cutoff then
    { d with status := DStatus.pending }
  else d

/-- `reviveStuckProcessing()`: computes `cutoff = now - ttl` and moves
every stuck `processing` row back to `pending`; a store error is caught
and swallowed (the store is returned as it was, and no error
propagates to the caller — the function is total). -/
def reviveStuckProcessing (now ttl : Nat) (st : Store) : Store :=
  let cutoff := now - ttl
  match st.failure with
  | some _ => st
  | none => { st with rows := st.rows.map (reviveUpdateRow cutoff) }

/-! ## The claim engine (`claimNextContactBatch`) -/

/-- A dispatch is ready when `scheduledAt` is null or has passed. -/
def isReady (now : Nat) (d : Dispatch) : Bool :=
  match d.scheduledAt with
  | none => true
  | some t => decide (t ≤ now)

/-- The `findFirst` predicate: this campaign, `pending`, and ready. -/
def claimMatches (cid now : Nat) (d : Dispatch) : Bool :=
  decide (d.campaignId = cid) && decide (d.status = DStatus.pending) && isReady now d

/-- Strict lexicographic order on character lists, the embedding of the
store's ascending string comparison. -/
def strLt : List Char → List Char → Bool
  | [], [] => false
  | [], _ :: _ => true
  | _ :: _, [] => false
  | a :: as, b :: bs =>
    if a < b then true
    else if b < a then false
    else strLt as bs

/-- Strict ascending comparison on the `orderBy` key
`(contact, messageOrder, createdAt)` of the claim engine's `findFirst`. -/
def keyLt (a b : Dispatch) : Bool :=
  strLt a.contact.data b.contact.data
    || (decide (a.contact = b.contact)
        && (decide (a.messageOrder < b.messageOrder)
            || (decide (a.messageOrder = b.messageOrder)
                && decide (a.createdAt < b.createdAt))))

/-- One step of scanning for the ascending-first row: keep the current
candidate unless the next row has a strictly smaller key. -/
def pickMin (acc : Option Dispatch) (d : Dispatch) : Option Dispatch :=
  match acc with
  | none => some d
  | some b => if keyLt d b then some d else acc

/-- `findFirst` over the dispatch table: the first row (in ascending
key order, earliest table position on ties) among the pending-and-ready
rows of the campaign. -/
def findFirstReady (cid now : Nat) (rows : List Dispatch) : Option Dispatch :=
  (rows.filter (claimMatches cid now)).foldl pickMin none

/-- The predicate of the claiming `updateMany`: same campaign, the
found row's contact and session, still `pending`, and ready. -/
def updateMatches (cid : Nat) (contact sess : String) (now : Nat) (d : Dispatch) : Bool :=
  decide (d.campaignId = cid) && decide (d.contact = contact)
    && decide (d.sessionName = sess) && decide (d.status = DStatus.pending)
    && isReady now d

/-- The claiming `updateMany`: move every matching row to `processing`
stamping `updatedAt`, and report the affected-row count. -/
def claimUpdate (cid : Nat) (contact sess : String) (now stamp : Nat)
    (rows : List Dispatch) : List Dispatch × Nat :=
  (rows.map fun d =>
     if updateMatches cid contact sess now d then
       { d with status := DStatus.processing, updatedAt := stamp }
     else d,
   (rows.filter (updateMatches cid contact sess now)).length)

/-- The batch re-read predicate: same group, `processing`, and
`updatedAt` at or after the claim start time. -/
def batchMatches (cid : Nat) (contact sess : String) (claimTime : Nat) (d : Dispatch) : Bool :=
  decide (d.campaignId = cid) && decide (d.contact = contact)
    && decide (d.sessionName = sess) && decide (d.status = DStatus.processing)
    && decide (claimTime ≤ d.updatedAt)

/-- The `orderBy messageOrder asc` comparison of the batch re-read. -/
def moLe (a b : Dispatch) : Prop := a.messageOrder ≤ b.messageOrder

instance : DecidableRel moLe := fun a b => Nat.decLe a.messageOrder b.messageOrder

instance : IsTotal Dispatch moLe := ⟨fun a b => Nat.le_total a.messageOrder b.messageOrder⟩

instance : IsTrans Dispatch moLe := ⟨fun _ _ _ h1 h2 => Nat.le_trans h1 h2⟩

/-- The batch re-read: the just-claimed rows of the contact, ordered by
ascending `messageOrder`. -/
def readBatch (cid : Nat) (contact sess : String) (claimTime : Nat)
    (rows : List Dispatch) : List Dispatch :=
  List.insertionSort moLe (rows.filter (batchMatches cid contact sess claimTime))

/-- The value assembled by a successful claim. -/
structure Claim where
  contact : String
  sessionName : String
  contactData : Option SegmentContact
  batch : List Dispatch
deriving DecidableEq, Repr

/-- The tail of the claim transaction, from the conditional update on:
this is the step that can race with another claimant. Zero affected
rows means another worker updated first: return null. Otherwise re-read
the batch, load the contact profile (`segmentContact.findFirst` by
phone) and assemble the `Claim`. Returns the claim (or null) together
with the dispatch table after the transaction. -/
def claimFinish (cid : Nat) (contact sess : String) (now claimTime stamp : Nat)
    (contacts : List SegmentContact) (rows : List Dispatch) :
    Option Claim × List Dispatch :=
  let upd := claimUpdate cid contact sess now stamp rows
  if upd.2 = 0 then (none, upd.1)
  else
    (some { contact := contact
            sessionName := sess
            contactData := contacts.find? fun c => decide (c.phone = contact)
            batch := readBatch cid contact sess claimTime upd.1 },
     upd.1)

/-- `claimNextContactBatch(campaignId)` as one serialized transaction:
find the first pending-and-ready row (null if none, leaving the table
untouched), then run the conditional update and assembly on the found
row's (contact, sessionName) group. `now` is the clock sample at entry,
`claimTime` the sample just before the update, `stamp` the sample
written by the update. -/
def claimNextContactBatch (cid now claimTime stamp : Nat)
    (contacts : List SegmentContact) (rows : List Dispatch) :
    Option Claim × List Dispatch :=
  match findFirstReady cid now rows with
  | none => (none, rows)
  | some first =>
    claimFinish cid first.contact first.sessionName now claimTime stamp contacts rows

/-! ## The message dispatcher (the send loop body of `processCampaign`) -/

/-- A completed gateway HTTP exchange: the truthiness of
`res.data.status` and the optional `res.data.message`. -/
structure GatewayResponse where
  status : Bool
  message : Option String
deriving DecidableEq, Repr

/-- The result of one gateway call: a response body, or a
dispatcher-level error (network failure or thrown exception). -/
inductive SendOutcome where
  | resp (r : GatewayResponse)
  | err (msg : String)
deriving DecidableEq, Repr

/-- JavaScript `m || 'Falha no envio'` on the optional response
message: the fallback is used when the message is absent or empty. -/
def fallbackMessage (m : Option String) : String :=
  match m with
  | some s => if s = "" then "Falha no envio" else s
  | none => "Falha no envio"

/-- The outcome mapping of one send: a truthy response `status` yields
(`sent`, error cleared); a response without a truthy status throws and
is caught, yielding (`failed`, stored message); a dispatcher-level
error yields (`failed`, its message). -/
def sendDispatchResult (o : SendOutcome) : DStatus × Option String :=
  match o with
  | .resp r =>
    if r.status then (DStatus.sent, none)
    else (DStatus.failed, some (fallbackMessage r.message))
  | .err m => (DStatus.failed, some m)

/-- The per-message `prisma.campaignDispatch.update` keyed by unique id:
set the row's status and error. -/
def updateDispatchStatus (rows : List Dispatch) (i : Nat) (st : DStatus)
    (er : Option String) : List Dispatch :=
  rows.map fun d =>
    if d.id = i then { d with status := st, error := er } else d

/-- The send loop over a claimed batch: each dispatch is attempted in
batch order regardless of earlier failures, its outcome recorded on its
row; `outcomes` gives the gateway result per dispatch id. Returns the
table after the loop and the ids attempted, in attempt order. -/
def sendBatch (outcomes : Nat → SendOutcome) (batch : List Dispatch)
    (rows : List Dispatch) : List Dispatch × List Nat :=
  batch.foldl
    (fun acc d =>
      let r := sendDispatchResult (outcomes d.id)
      (updateDispatchStatus acc.1 d.id r.1 r.2, acc.2 ++ [d.id]))
    (rows, [])

/-- The cumulative effect of the send loop on the dispatch table
(proof-side view of the first component of `sendBatch`). -/
def applySendResults (outcomes : Nat → SendOutcome) (batch rows : List Dispatch) :
    List Dispatch :=
  batch.foldl
    (fun acc d =>
      let r := sendDispatchResult (outcomes d.id)
      updateDispatchStatus acc d.id r.1 r.2)
    rows

/-- What the send loop does to one row of the table: each batch entry
with the row's id (at most one, for a batch of distinct ids) stamps the
row with that entry's outcome. -/
def rowAfterBatch (outcomes : Nat → SendOutcome) (batch : List Dispatch)
    (r : Dispatch) : Dispatch :=
  batch.foldl
    (fun acc d =>
      if acc.id = d.id then
        { acc with status := (sendDispatchResult (outcomes d.id)).1,
                   error := (sendDispatchResult (outcomes d.id)).2 }
      else acc)
    r

/-! ## The campaign loop (`processCampaign`), one iteration -/

/-- What one iteration of the `while (true)` loop does after re-reading
the campaign row. -/
inductive LoopStep where
  /-- The `return` paths: campaign gone, or no claimable work. -/
  | terminated
  /-- Campaign paused: sleep 10s and re-read. -/
  | pausedWait
  /-- A batch was claimed: send it in order with the iteration's
  per-message delay, then pace with the between-contacts delay. -/
  | sending (cl : Claim) (delayMs contactDelayMs : Nat)
deriving DecidableEq, Repr

/-- One iteration of the campaign loop on the freshly re-read campaign
row `camp` (`none` models a deleted campaign): a missing campaign
terminates; `status === 'paused'` waits; otherwise the delays are
recomputed from the row (`delay ?? 30000`, `contactDelay ?? 0`), the
claim engine runs, and a null claim or an empty batch terminates the
loop. Returns the step taken and the dispatch table afterwards. -/
def loopIter (camp : Option Campaign) (cid now claimTime stamp : Nat)
    (contacts : List SegmentContact) (rows : List Dispatch) :
    LoopStep × List Dispatch :=
  match camp with
  | none => (.terminated, rows)
  | some c =>
    if c.status = "paused" then (.pausedWait, rows)
    else
      let delayMs := c.delay.getD 30000
      let contactDelayMs := c.contactDelay.getD 0
      match claimNextContactBatch cid now claimTime stamp contacts rows with
      | (none, rows2) => (.terminated, rows2)
      | (some cl, rows2) =>
        if cl.batch.isEmpty then (.terminated, rows2)
        else (.sending cl delayMs contactDelayMs, rows2)

/-! ## The orchestrator (`orchestrate`) -/

/-- `Set.add` on the running-campaigns set modelled as a list without
duplicates. -/
def setAdd (s : List Nat) (x : Nat) : List Nat :=
  if s.contains x then s else s ++ [x]

/-- `Set.delete` on the running-campaigns set. -/
def setDelete (s : List Nat) (x : Nat) : List Nat :=
  s.filter fun y => y != x

/-- The detached completion handler attached to every launched loop:
whatever way the loop's promise settles (fulfilled or rejected), the
`finally` callback removes the campaign from the running set. -/
def runDetached (running : List Nat) (cid : Nat) (outcome : Except String Unit) :
    List Nat :=
  match outcome with
  | .ok _ => setDelete running cid
  | .error _ => setDelete running cid

/-- Prisma `distinct` on the discovered campaign ids: keep the first
occurrence of each id, in result order. -/
def distinctFirst (l : List Nat) : List Nat :=
  l.foldl (fun acc x => if acc.contains x then acc else acc ++ [x]) []

/-- Discovery: the distinct campaign ids having at least one pending
and ready dispatch. -/
def discoverCampaigns (now : Nat) (rows : List Dispatch) : List Nat :=
  distinctFirst ((rows.filter fun d =>
    decide (d.status = DStatus.pending) && isReady now d).map (·.campaignId))

/-- The launching `for` loop of one orchestrator tick: skip a candidate
already running (`continue`); once a positive concurrency ceiling is
reached, stop launching for this tick (`break` — remaining candidates
are left for the next tick); otherwise add the candidate to the running
set and launch it. Returns the running set and the list of campaigns
launched this tick, in launch order. -/
def launchLoop (maxConc : Nat) (running launched : List Nat) :
    List Nat → List Nat × List Nat
  | [] => (running, launched)
  | cid :: rest =>
    if running.contains cid then launchLoop maxConc running launched rest
    else if 0 < maxConc ∧ maxConc ≤ running.length then (running, launched)
    else launchLoop maxConc (setAdd running cid) (launched ++ [cid]) rest

/-- One orchestrator tick: run the reviver, discover campaigns with
ready work, and launch loops for those not already running, under the
concurrency ceiling. The launch phase itself never writes the store.
Returns the store after the reviver, the new running set and the
campaigns launched. -/
def orchestrateTick (maxConc now ttl : Nat) (st : Store) (running : List Nat) :
    Store × List Nat × List Nat :=
  let st2 := reviveStuckProcessing now ttl st
  let available := discoverCampaigns now st2.rows
  let res := launchLoop maxConc running [] available
  (st2, res.1, res.2)

/-! ## Sample data used by the witness theorems -/

/-- A ready pending dispatch of campaign 7. -/
def sampleRow : Dispatch :=
  { id := 1, campaignId := 7, sessionName := "s1", contact := "5511999999999",
    messageOrder := 1, message := "hello", status := DStatus.pending,
    scheduledAt := none, error := none, createdAt := 0, updatedAt := 0 }

/-- A second message of the same contact batch. -/
def sampleRow2 : Dispatch :=
  { sampleRow with id := 2, messageOrder := 2, message := "world" }

/-- A dispatch stuck in `processing` since time 5. -/
def stuckRow : Dispatch :=
  { sampleRow with id := 3, status := DStatus.processing, updatedAt := 5 }

/-- `sampleRow` as it looks right after being claimed at time 100. -/
def sampleClaimedRow : Dispatch :=
  { sampleRow with status := DStatus.processing, updatedAt := 100 }

/-- An active campaign with explicit delays. -/
def activeCampaign : Campaign :=
  { delay := some 5000, contactDelay := some 1000, status := "active" }

/-- An active campaign whose delay fields are null. -/
def noDelayCampaign : Campaign :=
  { delay := none, contactDelay := none, status := "active" }

/-- A paused campaign. -/
def pausedCampaign : Campaign :=
  { delay := none, contactDelay := none, status := "paused" }

/-- A campaign in a non-active status other than the literal `paused`. -/
def stoppedCampaign : Campaign :=
  { delay := none, contactDelay := none, status := "stopped" }

/-! ## C8 — template rendering -/

/-- C8: template rendering replaces each placeholder with the mapped
contact-profile field; the round-trip example renders as specified; an
absent key and a null field both render to the empty string (no
placeholder echo, no error); and substitution is not recursive — a
profile value that itself looks like a placeholder is emitted verbatim. -/
theorem claim8_render_template_round_trip :
    renderTemplate "Hi \x7b\x7bnome\x7d\x7d, email \x7b\x7bemail\x7d\x7d"
      (mappedContactData (some anaProfile)) = "Hi Ana, email a@x.com"
    ∧ renderTemplate "Hi \x7b\x7bfoo\x7d\x7d!" (mappedContactData (some anaProfile)) = "Hi !"
    ∧ renderTemplate "Hi \x7b\x7bnome\x7d\x7d!" (mappedContactData none) = "Hi !"
    ∧ renderTemplate "\x7b\x7bnome\x7d\x7d"
        (mappedContactData (some { phone := "p", name := some "\x7b\x7bemail\x7d\x7d",
                                   email := some "Z", empresa := none }))
      = "\x7b\x7bemail\x7d\x7d" := by
  refine ⟨?_, ?_, ?_, ?_⟩ <;> decide

/-! ## C3 — the reviver -/

/-- C3: after one reviver invocation on a healthy store, each row stuck
in `processing` with `updatedAt` older than `now - ttl` is in `pending`
(all other fields kept), every other row is unchanged (rows correspond
pointwise, so nothing is added, dropped or reordered); and a store
error is swallowed: the reviver returns with the store exactly as it
was instead of propagating the error. -/
theorem claim3_reviver_transitions (now ttl : Nat) (st : Store) :
    (st.failure = none →
      List.Forall₂ (fun d d2 =>
          (d.status = DStatus.processing ∧ d.updatedAt < now - ttl →
            d2 = { d with status := DStatus.pending })
          ∧ (¬ (d.status = DStatus.processing ∧ d.updatedAt < now - ttl) → d2 = d))
        st.rows (reviveStuckProcessing now ttl st).rows)
    ∧ (∀ e, st.failure = some e → reviveStuckProcessing now ttl st = st) := by
  constructor
  · intro hf
    simp only [reviveStuckProcessing, hf]
    rw [List.forall₂_map_right_iff]
    rw [List.forall₂_same]
    intro d _
    constructor
    · intro h
      simp [reviveUpdateRow, h]
    · intro h
      simp [reviveUpdateRow, h]
  · intro e hf
    simp [reviveStuckProcessing, hf]

/-- Witness for C3 at a concrete store holding one stuck row and one
fresh pending row, with `now = 100` and `ttl = 10` (cutoff 90). -/
theorem claim3_reviver_transitions_witness :
    List.Forall₂ (fun d d2 =>
        (d.status = DStatus.processing ∧ d.updatedAt < 100 - 10 →
          d2 = { d with status := DStatus.pending })
        ∧ (¬ (d.status = DStatus.processing ∧ d.updatedAt < 100 - 10) → d2 = d))
      (Store.mk [stuckRow, sampleRow] none).rows
      (reviveStuckProcessing 100 10 (Store.mk [stuckRow, sampleRow] none)).rows :=
  (claim3_reviver_transitions 100 10 (Store.mk [stuckRow, sampleRow] none)).1 rfl

/-! ## C7 — claiming with no ready work is a read-only null -/

/-- C7: on a store with no pending-and-ready dispatch for the campaign,
the claim engine returns null and returns the dispatch table exactly as
it was — no row is touched. -/
theorem claim7_no_ready_work_null (cid now claimTime stamp : Nat)
    (contacts : List SegmentContact) (rows : List Dispatch)
    (h : ∀ d ∈ rows, claimMatches cid now d = false) :
    claimNextContactBatch cid now claimTime stamp contacts rows = (none, rows) := by
  have hfilter : rows.filter (claimMatches cid now) = [] := by
    rw [List.filter_eq_nil_iff]
    intro a ha
    simp [h a ha]
  simp [claimNextContactBatch, findFirstReady, hfilter]

/-- Witness for C7: a store whose only rows are already sent or
scheduled in the future yields a null claim and an untouched table. -/
theorem claim7_no_ready_work_null_witness :
    claimNextContactBatch 7 100 100 100 []
        [{ sampleRow with status := DStatus.sent },
         { sampleRow2 with scheduledAt := some 500 }]
      = (none,
         [{ sampleRow with status := DStatus.sent },
          { sampleRow2 with scheduledAt := some 500 }]) :=
  claim7_no_ready_work_null 7 100 100 100 _ _ (by decide)

/-! ## C9 — pause handling (corrected: the code pauses only on the
literal status `paused`) -/

/-- Counterexample to C9 as stated: with the non-active status
`stopped` the loop does not wait in `paused-wait` — it advances past
loading-config, performs a claim (the table is mutated by the claiming
update), contradicting "never advances past the loading-config step"
for an arbitrary non-active status. -/
theorem claim9_counterexample_non_paused_status :
    (loopIter (some stoppedCampaign) 7 100 100 100 [] [sampleRow]).1
        ≠ LoopStep.pausedWait
    ∧ (loopIter (some stoppedCampaign) 7 100 100 100 [] [sampleRow]).2
        ≠ [sampleRow] := by
  constructor <;> decide

/-- C9 (amended): while the campaign's status is the literal `paused`,
one loop iteration stops at loading-config — it performs no claim and
no send (the dispatch table is returned untouched), sleeps the fixed
pause interval and re-reads the campaign, and does not exit (the step
is `pausedWait`, not `terminated`). Statuses other than the literal
`paused` do not pause the loop. -/
theorem claim9_paused_waits (camp : Campaign) (cid now claimTime stamp : Nat)
    (contacts : List SegmentContact) (rows : List Dispatch)
    (h : camp.status = "paused") :
    loopIter (some camp) cid now claimTime stamp contacts rows
      = (LoopStep.pausedWait, rows) := by
  simp [loopIter, h]

/-- Witness for the amended C9 at a concrete paused campaign over a
table with claimable work: the iteration waits and touches nothing. -/
theorem claim9_paused_waits_witness :
    loopIter (some pausedCampaign) 7 100 100 100 [] [sampleRow]
      = (LoopStep.pausedWait, [sampleRow]) :=
  claim9_paused_waits pausedCampaign 7 100 100 100 [] [sampleRow] rfl

/-! ## C4 — null claim terminates the loop; completion leaves the
running set -/

/-- C4: when the claim engine reports no ready work (null) on a
non-paused campaign, the loop iteration terminates rather than staying
alive (a deleted campaign also terminates); and on completion of the
detached loop by any path — fulfilled or rejected — the `finally`
handler removes the campaign id from the running set, so the
orchestrator may relaunch it. -/
theorem claim4_null_claim_terminates (camp : Campaign)
    (cid now claimTime stamp : Nat) (contacts : List SegmentContact)
    (rows : List Dispatch) (running : List Nat) (outcome : Except String Unit)
    (hp : camp.status ≠ "paused") :
    ((claimNextContactBatch cid now claimTime stamp contacts rows).1 = none →
      (loopIter (some camp) cid now claimTime stamp contacts rows).1
        = LoopStep.terminated)
    ∧ (loopIter none cid now claimTime stamp contacts rows).1 = LoopStep.terminated
    ∧ cid ∉ runDetached running cid outcome := by
  refine ⟨?_, rfl, ?_⟩
  · intro hclaim
    obtain ⟨o, rows2⟩ : Option Claim × List Dispatch :=
      claimNextContactBatch cid now claimTime stamp contacts rows
    simp only [loopIter, if_neg hp]
    rcases hc : claimNextContactBatch cid now claimTime stamp contacts rows with ⟨o, r2⟩
    rw [hc] at hclaim
    simp at hclaim
    subst hclaim
    rfl
  · cases outcome <;>
      simp [runDetached, setDelete, List.mem_filter]

/-- Witness for C4 on an empty dispatch table (the claim engine returns
null) with campaign 7 present in a two-element running set. -/
theorem claim4_null_claim_terminates_witness :
    ((claimNextContactBatch 7 0 0 0 [] []).1 = none →
      (loopIter (some activeCampaign) 7 0 0 0 [] []).1 = LoopStep.terminated)
    ∧ (loopIter none 7 0 0 0 [] ([] : List Dispatch)).1 = LoopStep.terminated
    ∧ 7 ∉ runDetached [7, 9] 7 (Except.ok ()) :=
  claim4_null_claim_terminates activeCampaign 7 0 0 0 [] [] [7, 9]
    (Except.ok ()) (by decide)

/-! ## C10 — default pacing values -/

/-- C10: an iteration whose freshly re-read campaign row has null
`delay` and null `contactDelay` proceeds to sending with a per-message
delay of 30000 ms and a between-contacts delay of 0 ms; the defaults
are recomputed inside every iteration from the row the iteration just
read (`loopIter` takes that row as its input). -/
theorem claim10_default_delays (camp : Campaign) (cid now claimTime stamp : Nat)
    (contacts : List SegmentContact) (rows : List Dispatch) (cl : Claim)
    (hp : camp.status ≠ "paused") (hd : camp.delay = none)
    (hc : camp.contactDelay = none)
    (hclaim : (claimNextContactBatch cid now claimTime stamp contacts rows).1
        = some cl)
    (hb : cl.batch ≠ []) :
    (loopIter (some camp) cid now claimTime stamp contacts rows).1
      = LoopStep.sending cl 30000 0 := by
  simp only [loopIter, if_neg hp, hd, hc, Option.getD_none]
  rcases hcc : claimNextContactBatch cid now claimTime stamp contacts rows with ⟨o, r2⟩
  rw [hcc] at hclaim
  simp at hclaim
  subst hclaim
  simp [List.isEmpty_iff, hb]

/-- Witness for C10: the no-delay campaign over a one-row table; the
claimed singleton batch is sent with delays 30000 and 0. -/
theorem claim10_default_delays_witness :
    (loopIter (some noDelayCampaign) 7 100 100 100 [] [sampleRow]).1
      = LoopStep.sending
          { contact := "5511999999999", sessionName := "s1", contactData := none,
            batch := [sampleClaimedRow] }
          30000 0 :=
  claim10_default_delays noDelayCampaign 7 100 100 100 [] [sampleRow] _
    (by decide) rfl rfl (by decide) (by decide)

/-! ## C5 — the orchestrator tick under the concurrency ceiling -/

/-- Membership in the running set after a `Set.add`. -/
theorem mem_setAdd {s : List Nat} {x y : Nat} :
    y ∈ setAdd s x ↔ y ∈ s ∨ y = x := by
  unfold setAdd
  by_cases h : s.contains x = true
  · rw [if_pos h]
    have hx : x ∈ s := by simpa using h
    constructor
    · exact fun hy => Or.inl hy
    · rintro (hy | rfl)
      · exact hy
      · exact hx
  · rw [if_neg h]
    simp [List.mem_append]

/-- Everything already launched this tick stays launched. -/
theorem launchLoop_launched_mono (maxConc : Nat) :
    ∀ (avail running launched : List Nat) (x : Nat),
      x ∈ launched → x ∈ (launchLoop maxConc running launched avail).2 := by
  intro avail
  induction avail with
  | nil => intro running launched x hx; simpa [launchLoop] using hx
  | cons cid rest ih =>
    intro running launched x hx
    unfold launchLoop
    by_cases h1 : running.contains cid
    · simp only [if_pos h1]
      exact ih _ _ _ hx
    · simp only [if_neg h1]
      by_cases h2 : 0 < maxConc ∧ maxConc ≤ running.length
      · simpa [if_pos h2] using hx
      · simp only [if_neg h2]
        exact ih _ _ _ (by simp [hx])

/-- A campaign already in the running set is never launched (again) by
the tick's `for` loop. -/
theorem launchLoop_no_relaunch (maxConc : Nat) :
    ∀ (avail running launched : List Nat) (c : Nat),
      c ∈ running → c ∉ launched →
      c ∉ (launchLoop maxConc running launched avail).2 := by
  intro avail
  induction avail with
  | nil => intro running launched c _ hcl; simpa [launchLoop] using hcl
  | cons cid rest ih =>
    intro running launched c hcr hcl
    unfold launchLoop
    by_cases h1 : running.contains cid
    · simp only [if_pos h1]
      exact ih _ _ _ hcr hcl
    · simp only [if_neg h1]
      by_cases h2 : 0 < maxConc ∧ maxConc ≤ running.length
      · simpa [if_pos h2] using hcl
      · simp only [if_neg h2]
        have hne : c ≠ cid := by
          intro heq
          subst heq
          exact h1 (by simpa using hcr)
        refine ih _ _ _ (mem_setAdd.mpr (Or.inl hcr)) ?_
        simp [hcl, hne]

/-- The running set never grows past a positive concurrency ceiling. -/
theorem launchLoop_ceiling (maxConc : Nat) :
    ∀ (avail running launched : List Nat),
      0 < maxConc → running.length ≤ maxConc →
      (launchLoop maxConc running launched avail).1.length ≤ maxConc := by
  intro avail
  induction avail with
  | nil => intro running launched _ hlen; simpa [launchLoop] using hlen
  | cons cid rest ih =>
    intro running launched hpos hlen
    unfold launchLoop
    by_cases h1 : running.contains cid
    · simp only [if_pos h1]
      exact ih _ _ hpos hlen
    · simp only [if_neg h1]
      by_cases h2 : 0 < maxConc ∧ maxConc ≤ running.length
      · simpa [if_pos h2] using hlen
      · simp only [if_neg h2]
        refine ih _ _ hpos ?_
        have hlt : running.length < maxConc := by
          rcases Nat.lt_or_ge running.length maxConc with h | h
          · exact h
          · exact absurd ⟨hpos, h⟩ h2
        unfold setAdd
        by_cases h3 : running.contains cid = true
        · rw [if_pos h3]
          exact hlen
        · rw [if_neg h3]
          simp only [List.length_append, List.length_cons, List.length_nil]
          omega

/-- A ready candidate that is neither running nor launched was skipped
only because the ceiling was reached: the ceiling is positive and the
final running set is at (or beyond) it. -/
theorem launchLoop_skip_only_for_capacity (maxConc : Nat) :
    ∀ (avail running launched : List Nat) (c : Nat),
      c ∈ avail → c ∉ running → c ∉ launched →
      c ∉ (launchLoop maxConc running launched avail).2 →
      0 < maxConc ∧ maxConc ≤ (launchLoop maxConc running launched avail).1.length := by
  intro avail
  induction avail with
  | nil => intro running launched c hca _ _ _; simp at hca
  | cons cid rest ih =>
    intro running launched c hca hcr hcl hres
    unfold launchLoop at hres ⊢
    by_cases h1 : running.contains cid
    · simp only [if_pos h1] at hres ⊢
      have hcrest : c ∈ rest := by
        rcases List.mem_cons.mp hca with rfl | h
        · exact absurd (by simpa using h1) hcr
        · exact h
      exact ih _ _ _ hcrest hcr hcl hres
    · simp only [if_neg h1] at hres ⊢
      by_cases h2 : 0 < maxConc ∧ maxConc ≤ running.length
      · simpa [if_pos h2] using h2
      · simp only [if_neg h2] at hres ⊢
        rcases List.mem_cons.mp hca with rfl | hcrest
        · exact absurd
            (launchLoop_launched_mono maxConc rest _ _ c (by simp)) hres
        · have hne : c ≠ cid := by
            intro heq
            subst heq
            exact hres (launchLoop_launched_mono maxConc rest _ _ c (by simp))
          refine ih _ _ _ hcrest ?_ ?_ hres
          · intro hmem
            rcases mem_setAdd.mp hmem with h | h
            · exact hcr h
            · exact hne h
          · simp [hcl, hne]

/-- C5: on an orchestrator tick, (i) a campaign already in the running
set is never launched a second time; (ii) with a positive ceiling and a
running set within it, the running set after the tick still respects the
ceiling; (iii) a ready candidate that ends up neither running nor
launched was skipped only because the ceiling had been reached — it is
deferred, not dropped, and (v) the launch phase never writes the store
(the tick's store is exactly the reviver's output), so the deferred
candidate's pending rows are still there to be rediscovered next tick;
(iv) with ceiling 1 and two distinct campaigns with ready work, one
tick launches exactly the first and defers the second. -/
theorem claim5_orchestrator_ceiling (maxConc now ttl : Nat) (st : Store)
    (running available : List Nat) :
    (∀ c ∈ running, c ∉ (launchLoop maxConc running [] available).2)
    ∧ (0 < maxConc → running.length ≤ maxConc →
        (launchLoop maxConc running [] available).1.length ≤ maxConc)
    ∧ (∀ c ∈ available, c ∉ running →
        c ∉ (launchLoop maxConc running [] available).2 →
        0 < maxConc ∧ maxConc ≤ (launchLoop maxConc running [] available).1.length)
    ∧ (∀ a b : Nat, a ≠ b → launchLoop 1 [] [] [a, b] = ([a], [a]))
    ∧ (orchestrateTick maxConc now ttl st running).1
        = reviveStuckProcessing now ttl st := by
  refine ⟨?_, ?_, ?_, ?_, rfl⟩
  · intro c hc
    exact launchLoop_no_relaunch maxConc available running [] c hc (by simp)
  · intro hpos hlen
    exact launchLoop_ceiling maxConc available running [] hpos hlen
  · intro c hca hcr hres
    exact launchLoop_skip_only_for_capacity maxConc available running [] c
      hca hcr (by simp) hres
  · intro a b hab
    have h1 : ([] : List Nat).contains a = false := rfl
    have h2 : [a].contains b = false := by
      simp [List.contains_cons, Ne.symm hab]
    simp [launchLoop, h1, h2, setAdd]

/-- Witness for C5: the two-campaign ceiling-1 scenario launches only
campaign 1; with campaign 5 already running at the ceiling, the tick
launches nothing new for it and stays at one running campaign. -/
theorem claim5_orchestrator_ceiling_witness :
    launchLoop 1 [] [] [1, 2] = ([1], [1])
    ∧ (launchLoop 1 [5] [] [5, 8]).1.length ≤ 1
    ∧ 5 ∉ (launchLoop 1 [5] [] [5, 8]).2 :=
  ⟨(claim5_orchestrator_ceiling 1 0 0 (Store.mk [] none) [] []).2.2.2.1 1 2
      (by decide),
   (claim5_orchestrator_ceiling 1 0 0 (Store.mk [] none) [5] [5, 8]).2.1
      (by decide) (by decide),
   (claim5_orchestrator_ceiling 1 0 0 (Store.mk [] none) [5] [5, 8]).1 5
      (by decide)⟩

/-! ## C6 — per-message outcomes and failure independence -/

/-- `sendBatch` updates the table like `applySendResults` and attempts
every dispatch of the batch, in batch order, whatever the outcomes. -/
theorem sendBatch_eq (outcomes : Nat → SendOutcome) (batch rows : List Dispatch) :
    sendBatch outcomes batch rows
      = (applySendResults outcomes batch rows, batch.map (·.id)) := by
  suffices h : ∀ (batch rows : List Dispatch) (l : List Nat),
      batch.foldl
        (fun acc d =>
          let r := sendDispatchResult (outcomes d.id)
          (updateDispatchStatus acc.1 d.id r.1 r.2, acc.2 ++ [d.id]))
        (rows, l)
      = (applySendResults outcomes batch rows, l ++ batch.map (·.id)) by
    simpa using h batch rows []
  intro batch
  induction batch with
  | nil => intro rows l; simp [applySendResults]
  | cons d bs ih =>
    intro rows l
    simp only [List.foldl_cons, List.map_cons]
    rw [ih]
    simp [applySendResults]

/-- The send loop acts on the table row by row. -/
theorem applySendResults_eq_map (outcomes : Nat → SendOutcome) :
    ∀ batch rows, applySendResults outcomes batch rows
      = rows.map (rowAfterBatch outcomes batch) := by
  intro batch
  induction batch with
  | nil =>
    intro rows
    have h : rows.map (rowAfterBatch outcomes []) = rows.map id :=
      List.map_congr_left fun r _ => rfl
    simp [applySendResults, h]
  | cons d bs ih =>
    intro rows
    have h1 : applySendResults outcomes (d :: bs) rows
        = applySendResults outcomes bs
            (updateDispatchStatus rows d.id
              (sendDispatchResult (outcomes d.id)).1
              (sendDispatchResult (outcomes d.id)).2) := by
      simp [applySendResults]
    rw [h1, ih]
    unfold updateDispatchStatus
    rw [List.map_map]
    refine List.map_congr_left fun r _ => ?_
    simp only [Function.comp_apply]
    rfl

/-- With distinct ids in the batch, a row inside the batch ends up with
exactly its own outcome, and a row outside the batch is untouched. -/
theorem rowAfterBatch_char (outcomes : Nat → SendOutcome) :
    ∀ (batch : List Dispatch) (r : Dispatch), (batch.map (·.id)).Nodup →
      rowAfterBatch outcomes batch r
        = if (batch.map (·.id)).contains r.id then
            { r with status := (sendDispatchResult (outcomes r.id)).1,
                     error := (sendDispatchResult (outcomes r.id)).2 }
          else r := by
  intro batch
  induction batch with
  | nil =>
    intro r _
    simp [rowAfterBatch]
  | cons d bs ih =>
    intro r hnd
    simp only [List.map_cons, List.nodup_cons] at hnd
    obtain ⟨hdid, hnd2⟩ := hnd
    have hstep : rowAfterBatch outcomes (d :: bs) r
        = rowAfterBatch outcomes bs
            (if r.id = d.id then
              { r with status := (sendDispatchResult (outcomes d.id)).1,
                       error := (sendDispatchResult (outcomes d.id)).2 }
             else r) := by
      simp [rowAfterBatch]
    rw [hstep]
    by_cases hr : r.id = d.id
    · rw [if_pos hr, ih _ hnd2]
      have hcont1 : ((bs.map (·.id)).contains r.id) = false := by
        rw [hr]
        simpa using hdid
      have hcont2 : (((d :: bs).map (·.id)).contains r.id) = true := by
        simp [hr]
      simp [hcont1, hcont2, hr]
    · rw [if_neg hr, ih _ hnd2]
      have hcont : (((d :: bs).map (·.id)).contains r.id)
          = ((bs.map (·.id)).contains r.id) := by
        simp [List.contains_cons, hr]
      rw [hcont]

/-- C6: over a claimed batch with distinct dispatch ids, (i) every
message of the batch is attempted, in batch order, no matter which
earlier sends failed — the loop always reaches the end of the batch and
goes on to pacing; (ii) each batch row ends with exactly its own
outcome and rows outside the batch are untouched; (iii) the outcome
mapping is: a response with truthy `status` marks the row `sent` with
`error` cleared to null, any other response marks it `failed` storing
the response message (with the fixed fallback text when absent or
empty), and a dispatcher-level error marks it `failed` storing the
error message. -/
theorem claim6_send_outcomes (outcomes : Nat → SendOutcome)
    (batch rows : List Dispatch) (hnd : (batch.map (·.id)).Nodup) :
    (sendBatch outcomes batch rows).2 = batch.map (·.id)
    ∧ (sendBatch outcomes batch rows).1
        = rows.map (fun r =>
            if (batch.map (·.id)).contains r.id then
              { r with status := (sendDispatchResult (outcomes r.id)).1,
                       error := (sendDispatchResult (outcomes r.id)).2 }
            else r)
    ∧ (∀ g : GatewayResponse, g.status = true →
        sendDispatchResult (.resp g) = (DStatus.sent, none))
    ∧ (∀ g : GatewayResponse, g.status = false →
        sendDispatchResult (.resp g)
          = (DStatus.failed, some (fallbackMessage g.message)))
    ∧ (∀ m : String, sendDispatchResult (.err m) = (DStatus.failed, some m)) := by
  refine ⟨?_, ?_, ?_, ?_, fun m => rfl⟩
  · rw [sendBatch_eq]
  · rw [sendBatch_eq, applySendResults_eq_map]
    exact List.map_congr_left fun r _ => rowAfterBatch_char outcomes batch r hnd
  · intro g hg
    simp [sendDispatchResult, hg]
  · intro g hg
    simp [sendDispatchResult, hg]

/-- Witness for C6: a two-message batch where message 1 succeeds and
message 2 fails at the gateway — both are attempted in order, row 1
becomes `sent` with error cleared, row 2 becomes `failed` with the
gateway's error text stored. -/
theorem claim6_send_outcomes_witness :
    (sendBatch
        (fun i => if i = 1 then SendOutcome.resp (GatewayResponse.mk true none)
                  else SendOutcome.resp (GatewayResponse.mk false (some "boom")))
        [sampleClaimedRow, { sampleRow2 with status := DStatus.processing }]
        [sampleClaimedRow, { sampleRow2 with status := DStatus.processing }]).2
      = [1, 2]
    ∧ (sendBatch
        (fun i => if i = 1 then SendOutcome.resp (GatewayResponse.mk true none)
                  else SendOutcome.resp (GatewayResponse.mk false (some "boom")))
        [sampleClaimedRow, { sampleRow2 with status := DStatus.processing }]
        [sampleClaimedRow, { sampleRow2 with status := DStatus.processing }]).1
      = [{ sampleClaimedRow with status := DStatus.sent, error := none },
         { sampleRow2 with status := DStatus.failed, error := some "boom" }] := by
  have h := claim6_send_outcomes
    (fun i => if i = 1 then SendOutcome.resp (GatewayResponse.mk true none)
              else SendOutcome.resp (GatewayResponse.mk false (some "boom")))
    [sampleClaimedRow, { sampleRow2 with status := DStatus.processing }]
    [sampleClaimedRow, { sampleRow2 with status := DStatus.processing }]
    (by decide)
  refine ⟨by rw [h.1]; decide, by rw [h.2.1]; decide⟩

/-! ## C1 — at most one claimant wins the conditional update -/

/-- The dispatch table a claim transaction leaves behind is the output
of its conditional update, whether or not any row was affected. -/
theorem claimFinish_snd (cid : Nat) (contact sess : String)
    (now claimTime stamp : Nat) (contacts : List SegmentContact)
    (rows : List Dispatch) :
    (claimFinish cid contact sess now claimTime stamp contacts rows).2
      = (claimUpdate cid contact sess now stamp rows).1 := by
  simp only [claimFinish]
  split <;> rfl

/-- After the claiming update commits, no row of the table still
matches the claim predicate of the group: the matched rows are now
`processing`, the rest never matched. -/
theorem claimUpdate_clears_matches (cid : Nat) (contact sess : String)
    (now stamp : Nat) (rows : List Dispatch) :
    ∀ d ∈ (claimUpdate cid contact sess now stamp rows).1,
      updateMatches cid contact sess now d = false := by
  intro d hd
  unfold claimUpdate at hd
  rcases List.mem_map.mp hd with ⟨a, _, rfl⟩
  by_cases ha : updateMatches cid contact sess now a = true
  · rw [if_pos ha]
    simp [updateMatches]
  · rw [if_neg ha]
    simpa using ha

/-- A conditional update whose predicate matches nothing returns the
table unchanged. -/
theorem claimUpdate_of_no_match (cid : Nat) (contact sess : String)
    (now stamp : Nat) (rows : List Dispatch)
    (h : ∀ d ∈ rows, updateMatches cid contact sess now d = false) :
    claimUpdate cid contact sess now stamp rows = (rows, 0) := by
  unfold claimUpdate
  have hmap : rows.map (fun d =>
      if updateMatches cid contact sess now d then
        { d with status := DStatus.processing, updatedAt := stamp }
      else d) = rows.map id := by
    refine List.map_congr_left fun d hd => ?_
    rw [h d hd]
    simp
  have hfilter : rows.filter (updateMatches cid contact sess now) = [] := by
    rw [List.filter_eq_nil_iff]
    intro a ha
    simp [h a ha]
  rw [hmap, List.map_id, hfilter]
  rfl

/-- A claim transaction whose conditional update matches nothing
returns null and the table unchanged. -/
theorem claimFinish_of_no_match (cid : Nat) (contact sess : String)
    (now claimTime stamp : Nat) (contacts : List SegmentContact)
    (rows : List Dispatch)
    (h : ∀ d ∈ rows, updateMatches cid contact sess now d = false) :
    claimFinish cid contact sess now claimTime stamp contacts rows
      = (none, rows) := by
  have hupd := claimUpdate_of_no_match cid contact sess now stamp rows h
  simp only [claimFinish]
  rw [hupd]
  rfl

/-- C1: serialize the concurrent claim transactions on one
(campaignId, contact, sessionName) group in their store commit order.
On a table holding at least one pending-and-ready row of the group,
(i) the first transaction's conditional update affects those rows and
the transaction returns a claim; (ii) it leaves no pending-and-ready
row of the group behind, so (iii) every later attempt on the group
observes zero affected rows from its conditional update, and (iv)
returns null leaving the table exactly as the winner left it — at most
one claimant ever holds the group's `processing` rows. -/
theorem claim1_exclusive_claim (cid : Nat) (contact sess : String)
    (now t1 s1 t2 s2 : Nat) (contacts1 contacts2 : List SegmentContact)
    (rows : List Dispatch)
    (h : (rows.filter (updateMatches cid contact sess now)).length ≠ 0) :
    ((claimFinish cid contact sess now t1 s1 contacts1 rows).1.isSome = true)
    ∧ (∀ d ∈ (claimFinish cid contact sess now t1 s1 contacts1 rows).2,
        updateMatches cid contact sess now d = false)
    ∧ ((claimUpdate cid contact sess now s2
          (claimFinish cid contact sess now t1 s1 contacts1 rows).2).2 = 0)
    ∧ (claimFinish cid contact sess now t2 s2 contacts2
          (claimFinish cid contact sess now t1 s1 contacts1 rows).2
        = (none, (claimFinish cid contact sess now t1 s1 contacts1 rows).2)) := by
  have hcleared : ∀ d ∈ (claimFinish cid contact sess now t1 s1 contacts1 rows).2,
      updateMatches cid contact sess now d = false := by
    rw [claimFinish_snd]
    exact claimUpdate_clears_matches cid contact sess now s1 rows
  have hsecond : claimUpdate cid contact sess now s2
      (claimFinish cid contact sess now t1 s1 contacts1 rows).2
      = ((claimFinish cid contact sess now t1 s1 contacts1 rows).2, 0) :=
    claimUpdate_of_no_match cid contact sess now s2 _ hcleared
  refine ⟨?_, hcleared, by rw [hsecond],
    claimFinish_of_no_match cid contact sess now t2 s2 contacts2 _ hcleared⟩
  have hcount : (claimUpdate cid contact sess now s1 rows).2 ≠ 0 := by
    simpa [claimUpdate] using h
  simp only [claimFinish]
  rw [if_neg hcount]
  rfl

/-- Witness for C1: two attempts on campaign 7's contact group over a
table holding two pending rows of the group; the first claims both, the
second affects nothing and returns null. -/
theorem claim1_exclusive_claim_witness :
    ((claimFinish 7 "5511999999999" "s1" 100 100 100 [] [sampleRow, sampleRow2]).1.isSome
        = true)
    ∧ (claimFinish 7 "5511999999999" "s1" 100 101 101 []
          (claimFinish 7 "5511999999999" "s1" 100 100 100 []
            [sampleRow, sampleRow2]).2
        = (none,
           (claimFinish 7 "5511999999999" "s1" 100 100 100 []
             [sampleRow, sampleRow2]).2)) :=
  ⟨(claim1_exclusive_claim 7 "5511999999999" "s1" 100 100 100 101 101 [] []
      [sampleRow, sampleRow2] (by decide)).1,
   (claim1_exclusive_claim 7 "5511999999999" "s1" 100 100 100 101 101 [] []
      [sampleRow, sampleRow2] (by decide)).2.2.2⟩

/-! ## C2 — the claim selects the ascending-first row and returns the
contact's batch in `messageOrder` -/

/-- The strict character-list order is irreflexive. -/
theorem strLt_irrefl (s : List Char) : strLt s s = false := by
  induction s with
  | nil => rfl
  | cons a as ih => simp [strLt, ih]

/-- The strict character-list order is transitive. -/
theorem strLt_trans : ∀ (a b c : List Char),
    strLt a b = true → strLt b c = true → strLt a c = true := by
  intro a
  induction a with
  | nil =>
    intro b c hab hbc
    cases b with
    | nil => simp [strLt] at hab
    | cons y ys =>
      cases c with
      | nil => simp [strLt] at hbc
      | cons z zs => rfl
  | cons x xs ih =>
    intro b c hab hbc
    cases b with
    | nil => simp [strLt] at hab
    | cons y ys =>
      cases c with
      | nil => simp [strLt] at hbc
      | cons z zs =>
        simp only [strLt] at hab hbc ⊢
        by_cases hxy : x < y
        · by_cases hyz : y < z
          · simp [lt_trans hxy hyz]
          · by_cases hzy : z < y
            · simp [hyz, hzy] at hbc
            · have heq : y = z := le_antisymm (not_lt.mp hzy) (not_lt.mp hyz)
              subst heq
              simp [hxy]
        · by_cases hyx : y < x
          · simp [hxy, hyx] at hab
          · have heq : x = y := le_antisymm (not_lt.mp hyx) (not_lt.mp hxy)
            subst heq
            simp only [lt_irrefl, if_false] at hab hbc ⊢
            by_cases hxz : x < z
            · simp [hxz]
            · by_cases hzx : z < x
              · simp [hxz, hzx] at hbc
              · have hez : x = z := le_antisymm (not_lt.mp hzx) (not_lt.mp hxz)
                subst hez
                simp only [lt_irrefl, if_false] at hbc ⊢
                exact ih ys zs hab hbc

/-- Two character lists neither of which precedes the other are equal. -/
theorem strLt_total_eq : ∀ (a b : List Char),
    strLt a b = false → strLt b a = false → a = b := by
  intro a
  induction a with
  | nil =>
    intro b h1 _
    cases b with
    | nil => rfl
    | cons y ys => simp [strLt] at h1
  | cons x xs ih =>
    intro b h1 h2
    cases b with
    | nil => simp [strLt] at h2
    | cons y ys =>
      simp only [strLt] at h1 h2
      by_cases hxy : x < y
      · simp [hxy] at h1
      · by_cases hyx : y < x
        · simp [hxy, hyx] at h2
        · have hexy : x = y := le_antisymm (not_lt.mp hyx) (not_lt.mp hxy)
          subst hexy
          simp only [lt_irrefl, if_false] at h1 h2
          rw [ih ys h1 h2]

/-- Unfolding of the ascending `orderBy` key comparison. -/
theorem keyLt_iff (a b : Dispatch) :
    keyLt a b = true
      ↔ strLt a.contact.data b.contact.data = true
        ∨ (a.contact = b.contact
            ∧ (a.messageOrder < b.messageOrder
                ∨ (a.messageOrder = b.messageOrder ∧ a.createdAt < b.createdAt))) := by
  simp [keyLt]

/-- The key comparison is irreflexive. -/
theorem keyLt_irrefl (a : Dispatch) : keyLt a a = false := by
  simp [keyLt, strLt_irrefl]

/-- The key comparison depends only on the key triple. -/
theorem keyLt_congr_left (a b x : Dispatch) (h1 : a.contact = b.contact)
    (h2 : a.messageOrder = b.messageOrder) (h3 : a.createdAt = b.createdAt) :
    keyLt a x = keyLt b x := by
  simp [keyLt, h1, h2, h3]

/-- The key comparison is transitive. -/
theorem keyLt_trans (a b c : Dispatch) (hab : keyLt a b = true)
    (hbc : keyLt b c = true) : keyLt a c = true := by
  rw [keyLt_iff] at hab hbc ⊢
  rcases hab with hs1 | ⟨hc1, hn1⟩
  · rcases hbc with hs2 | ⟨hc2, _⟩
    · exact Or.inl (strLt_trans _ _ _ hs1 hs2)
    · rw [hc2] at hs1
      exact Or.inl hs1
  · rcases hbc with hs2 | ⟨hc2, hn2⟩
    · rw [← hc1] at hs2
      exact Or.inl hs2
    · refine Or.inr ⟨hc1.trans hc2, ?_⟩
      rcases hn1 with hm1 | ⟨hm1, hd1⟩ <;> rcases hn2 with hm2 | ⟨hm2, hd2⟩
      · exact Or.inl (hm1.trans hm2)
      · exact Or.inl (hm2 ▸ hm1)
      · exact Or.inl (hm1 ▸ hm2)
      · exact Or.inr ⟨hm1.trans hm2, hd1.trans hd2⟩

/-- Trichotomy for the key comparison: two rows are comparable or share
the whole key triple. -/
theorem keyLt_cases (a b : Dispatch) :
    keyLt a b = true ∨ keyLt b a = true
      ∨ (a.contact = b.contact ∧ a.messageOrder = b.messageOrder
          ∧ a.createdAt = b.createdAt) := by
  by_cases hs1 : strLt a.contact.data b.contact.data = true
  · exact Or.inl (keyLt_iff a b |>.mpr (Or.inl hs1))
  · by_cases hs2 : strLt b.contact.data a.contact.data = true
    · exact Or.inr (Or.inl (keyLt_iff b a |>.mpr (Or.inl hs2)))
    · have hceq : a.contact = b.contact :=
        String.ext (strLt_total_eq _ _
          (Bool.not_eq_true _ ▸ (by simpa using hs1))
          (Bool.not_eq_true _ ▸ (by simpa using hs2)))
      rcases Nat.lt_trichotomy a.messageOrder b.messageOrder with hm | hm | hm
      · exact Or.inl (keyLt_iff a b |>.mpr (Or.inr ⟨hceq, Or.inl hm⟩))
      · rcases Nat.lt_trichotomy a.createdAt b.createdAt with hd | hd | hd
        · exact Or.inl (keyLt_iff a b |>.mpr (Or.inr ⟨hceq, Or.inr ⟨hm, hd⟩⟩))
        · exact Or.inr (Or.inr ⟨hceq, hm, hd⟩)
        · exact Or.inr (Or.inl (keyLt_iff b a |>.mpr
            (Or.inr ⟨hceq.symm, Or.inr ⟨hm.symm, hd⟩⟩)))
      · exact Or.inr (Or.inl (keyLt_iff b a |>.mpr (Or.inr ⟨hceq.symm, Or.inl hm⟩)))

/-- Non-precedence under the key comparison is transitive. -/
theorem keyLt_false_trans (a b c : Dispatch) (hab : keyLt a b = false)
    (hbc : keyLt b c = false) : keyLt a c = false := by
  by_contra hac
  rw [Bool.not_eq_false] at hac
  rcases keyLt_cases a b with h | h | ⟨h1, h2, h3⟩
  · exact absurd h (by simp [hab])
  · have := keyLt_trans b a c h hac
    exact absurd this (by simp [hbc])
  · rw [keyLt_congr_left a b c h1 h2 h3] at hac
    exact absurd hac (by simp [hbc])

/-- The scan never loses its candidate. -/
theorem foldl_pickMin_ne_none :
    ∀ (l : List Dispatch) (b : Dispatch) (acc : Option Dispatch),
      acc = some b → l.foldl pickMin acc ≠ none := by
  intro l
  induction l with
  | nil =>
    intro b acc hacc
    simp [hacc]
  | cons d ds ih =>
    intro b acc hacc
    subst hacc
    simp only [List.foldl_cons, pickMin]
    by_cases hk : keyLt d b = true
    · rw [if_pos hk]
      exact ih d _ rfl
    · rw [if_neg hk]
      exact ih b _ rfl

/-- Specification of the scan: it returns an element of the candidates
that no candidate strictly precedes. -/
theorem foldl_pickMin_spec :
    ∀ (l : List Dispatch) (acc : Option Dispatch) (r : Dispatch),
      l.foldl pickMin acc = some r →
      (acc = some r ∨ r ∈ l)
      ∧ (∀ b, acc = some b → keyLt b r = false)
      ∧ (∀ d ∈ l, keyLt d r = false) := by
  intro l
  induction l with
  | nil =>
    intro acc r hres
    simp only [List.foldl_nil] at hres
    refine ⟨Or.inl hres, fun b hb => ?_, by simp⟩
    rw [hb] at hres
    cases hres
    exact keyLt_irrefl r
  | cons d ds ih =>
    intro acc r hres
    simp only [List.foldl_cons] at hres
    cases acc with
    | none =>
      have hres2 : ds.foldl pickMin (some d) = some r := hres
      obtain ⟨hmem, hacc, hall⟩ := ih (some d) r hres2
      refine ⟨?_, by simp, ?_⟩
      · rcases hmem with h | h
        · cases h
          exact Or.inr (List.mem_cons_self _ _)
        · exact Or.inr (List.mem_cons_of_mem _ h)
      · intro e he
        rcases List.mem_cons.mp he with rfl | he2
        · exact hacc e rfl
        · exact hall e he2
    | some b0 =>
      simp only [pickMin] at hres
      by_cases hk : keyLt d b0 = true
      · rw [if_pos hk] at hres
        obtain ⟨hmem, hacc, hall⟩ := ih (some d) r hres
        have hdr : keyLt d r = false := hacc d rfl
        refine ⟨?_, ?_, ?_⟩
        · rcases hmem with h | h
          · cases h
            exact Or.inr (List.mem_cons_self _ _)
          · exact Or.inr (List.mem_cons_of_mem _ h)
        · intro b hb
          cases hb
          by_contra hbr
          rw [Bool.not_eq_false] at hbr
          have := keyLt_trans d b0 r hk hbr
          exact absurd this (by simp [hdr])
        · intro e he
          rcases List.mem_cons.mp he with rfl | he2
          · exact hdr
          · exact hall e he2
      · rw [if_neg hk] at hres
        obtain ⟨hmem, hacc, hall⟩ := ih (some b0) r hres
        have hb0r : keyLt b0 r = false := hacc b0 rfl
        refine ⟨?_, ?_, ?_⟩
        · rcases hmem with h | h
          · exact Or.inl h
          · exact Or.inr (List.mem_cons_of_mem _ h)
        · intro b hb
          cases hb
          exact hb0r
        · intro e he
          rcases List.mem_cons.mp he with rfl | he2
          · exact keyLt_false_trans e b0 r (Bool.not_eq_true _ ▸ hk) hb0r
          · exact hall e he2

/-- `findFirst` on a table with ready work returns a pending-and-ready
row of the campaign that no other such row precedes in the ascending
`(contact, messageOrder, createdAt)` order. -/
theorem findFirstReady_spec (cid now : Nat) (rows : List Dispatch)
    (h : rows.filter (claimMatches cid now) ≠ []) :
    ∃ first, findFirstReady cid now rows = some first
      ∧ first ∈ rows ∧ claimMatches cid now first = true
      ∧ ∀ d ∈ rows, claimMatches cid now d = true → keyLt d first = false := by
  cases hres : findFirstReady cid now rows with
  | none =>
    exfalso
    unfold findFirstReady at hres
    cases hl : rows.filter (claimMatches cid now) with
    | nil => exact h hl
    | cons d ds =>
      rw [hl, List.foldl_cons] at hres
      exact foldl_pickMin_ne_none ds d (pickMin none d) rfl hres
  | some first =>
    unfold findFirstReady at hres
    obtain ⟨hmem, _, hall⟩ := foldl_pickMin_spec _ none first hres
    have hmem2 : first ∈ rows.filter (claimMatches cid now) := by
      rcases hmem with h | h
      · cases h
      · exact h
    obtain ⟨hfirstRows, hfirstMatch⟩ := List.mem_filter.mp hmem2
    refine ⟨first, rfl, hfirstRows, hfirstMatch, fun d hd hdm => ?_⟩
    exact hall d (List.mem_filter.mpr ⟨hd, hdm⟩)

/-- Unpacking the claiming-update predicate. -/
theorem updateMatches_iff (cid : Nat) (contact sess : String) (now : Nat)
    (d : Dispatch) :
    updateMatches cid contact sess now d = true
      ↔ d.campaignId = cid ∧ d.contact = contact ∧ d.sessionName = sess
        ∧ d.status = DStatus.pending ∧ isReady now d = true := by
  simp [updateMatches, and_assoc]

/-- Provided the claim stamp is not before the claim start time and no
pre-existing `processing` row carries a stamp at or past the claim
start (each was last touched before this claim began), the batch
re-read predicate selects exactly the rows the claiming update just
transitioned. -/
theorem batch_filter_after_update (cid : Nat) (contact sess : String)
    (now claimTime stamp : Nat) (rows : List Dispatch)
    (hstamp : claimTime ≤ stamp)
    (hproc : ∀ d ∈ rows, d.status = DStatus.processing →
      d.updatedAt < claimTime) :
    (rows.map fun d =>
        if updateMatches cid contact sess now d then
          { d with status := DStatus.processing, updatedAt := stamp }
        else d).filter (batchMatches cid contact sess claimTime)
      = (rows.filter (updateMatches cid contact sess now)).map
          (fun d => { d with status := DStatus.processing, updatedAt := stamp }) := by
  induction rows with
  | nil => rfl
  | cons d ds ih =>
    have hds : ∀ x ∈ ds, x.status = DStatus.processing → x.updatedAt < claimTime :=
      fun x hx => hproc x (List.mem_cons_of_mem _ hx)
    have ihds := ih hds
    by_cases hm : updateMatches cid contact sess now d = true
    · obtain ⟨h1, h2, h3, _, _⟩ := (updateMatches_iff cid contact sess now d).mp hm
      have hbm : batchMatches cid contact sess claimTime
          ({ d with status := DStatus.processing, updatedAt := stamp }) = true := by
        simp [batchMatches, h1, h2, h3, hstamp]
      simp only [List.map_cons, List.filter_cons, hm, hbm, if_true]
      rw [ihds]
    · have hbm : batchMatches cid contact sess claimTime d = false := by
        by_cases hps : d.status = DStatus.processing
        · have hlt : d.updatedAt < claimTime := hproc d (List.mem_cons_self _ _) hps
          have hnle : ¬ claimTime ≤ d.updatedAt := Nat.not_le.mpr hlt
          simp [batchMatches, hnle]
        · simp [batchMatches, hps]
      simp only [List.map_cons, List.filter_cons, hm, hbm, if_false,
        Bool.false_eq_true]
      rw [ihds]

/-- C2: on a table with ready work for the campaign — under the clock
monotonicity `claimTime ≤ stamp`, the absence of foreign `processing`
rows stamped during this claim, and the data-model invariant that
`messageOrder` is a total order within a (campaignId, contact,
sessionName) group — the claim engine returns a claim built from the
ascending-first ready row (no ready row of the campaign precedes it in
`(contact, messageOrder, createdAt)` order): the claim carries that
row's contact and session, its batch is exactly the contact's
just-claimed dispatches in strictly increasing `messageOrder`, and the
send loop hands the batch to the dispatcher in exactly that order. -/
theorem claim2_claim_order (cid now claimTime stamp : Nat)
    (contacts : List SegmentContact) (rows : List Dispatch)
    (hne : rows.filter (claimMatches cid now) ≠ [])
    (hstamp : claimTime ≤ stamp)
    (hproc : ∀ d ∈ rows, d.status = DStatus.processing → d.updatedAt < claimTime)
    (hmo : rows.Pairwise (fun d1 d2 =>
        d1.campaignId = cid → d2.campaignId = cid → d1.contact = d2.contact →
        d1.sessionName = d2.sessionName → d1.messageOrder ≠ d2.messageOrder)) :
    ∃ first cl,
      (claimNextContactBatch cid now claimTime stamp contacts rows).1 = some cl
      ∧ first ∈ rows ∧ claimMatches cid now first = true
      ∧ (∀ d ∈ rows, claimMatches cid now d = true → keyLt d first = false)
      ∧ cl.contact = first.contact
      ∧ cl.sessionName = first.sessionName
      ∧ cl.batch.Pairwise (fun a b => a.messageOrder < b.messageOrder)
      ∧ (cl.batch.map (·.id)).Perm
          ((rows.filter
              (updateMatches cid first.contact first.sessionName now)).map (·.id))
      ∧ (∀ (outcomes : Nat → SendOutcome) (rows2 : List Dispatch),
          (sendBatch outcomes cl.batch rows2).2 = cl.batch.map (·.id)) := by
  obtain ⟨first, hfind, hfr, hfm, hmin⟩ := findFirstReady_spec cid now rows hne
  have hfm2 : first.campaignId = cid ∧ first.status = DStatus.pending
      ∧ isReady now first = true := by
    simpa [claimMatches, and_assoc] using hfm
  have hum : updateMatches cid first.contact first.sessionName now first = true :=
    (updateMatches_iff cid first.contact first.sessionName now first).mpr
      ⟨hfm2.1, rfl, rfl, hfm2.2.1, hfm2.2.2⟩
  have hmemfil : first ∈ rows.filter
      (updateMatches cid first.contact first.sessionName now) :=
    List.mem_filter.mpr ⟨hfr, hum⟩
  have hcnt : (rows.filter
      (updateMatches cid first.contact first.sessionName now)).length ≠ 0 := by
    intro h0
    exact List.ne_nil_of_mem hmemfil (List.eq_nil_of_length_eq_zero h0)
  have hcount2 : (claimUpdate cid first.contact first.sessionName now stamp
      rows).2 ≠ 0 := by
    simpa [claimUpdate] using hcnt
  have hcnb : claimNextContactBatch cid now claimTime stamp contacts rows
      = claimFinish cid first.contact first.sessionName now claimTime stamp
          contacts rows := by
    unfold claimNextContactBatch
    rw [hfind]
  have hfin : claimFinish cid first.contact first.sessionName now claimTime stamp
        contacts rows
      = (some
          { contact := first.contact
            sessionName := first.sessionName
            contactData := contacts.find? fun c => decide (c.phone = first.contact)
            batch := readBatch cid first.contact first.sessionName claimTime
              (claimUpdate cid first.contact first.sessionName now stamp rows).1 },
         (claimUpdate cid first.contact first.sessionName now stamp rows).1) := by
    simp only [claimFinish]
    rw [if_neg hcount2]
  have hbatch : readBatch cid first.contact first.sessionName claimTime
        (claimUpdate cid first.contact first.sessionName now stamp rows).1
      = List.insertionSort moLe
          ((rows.filter (updateMatches cid first.contact first.sessionName now)).map
            (fun d => { d with status := DStatus.processing, updatedAt := stamp })) := by
    unfold readBatch
    rw [show (claimUpdate cid first.contact first.sessionName now stamp rows).1
        = rows.map (fun d =>
            if updateMatches cid first.contact first.sessionName now d then
              { d with status := DStatus.processing, updatedAt := stamp }
            else d) from rfl]
    rw [batch_filter_after_update cid first.contact first.sessionName now
      claimTime stamp rows hstamp hproc]
  have hXne : ((rows.filter
        (updateMatches cid first.contact first.sessionName now)).map
          (fun d => { d with status := DStatus.processing, updatedAt := stamp })).Pairwise
      (fun a b => a.messageOrder ≠ b.messageOrder) := by
    rw [List.pairwise_map]
    have hfilpw := hmo.filter (updateMatches cid first.contact first.sessionName now)
    refine hfilpw.imp_of_mem ?_
    intro a b ha hb hrel
    obtain ⟨_, hua⟩ := List.mem_filter.mp ha
    obtain ⟨_, hub⟩ := List.mem_filter.mp hb
    obtain ⟨ha1, ha2, ha3, _, _⟩ :=
      (updateMatches_iff cid first.contact first.sessionName now a).mp hua
    obtain ⟨hb1, hb2, hb3, _, _⟩ :=
      (updateMatches_iff cid first.contact first.sessionName now b).mp hub
    simpa using hrel ha1 hb1 (ha2.trans hb2.symm) (ha3.trans hb3.symm)
  have hperm := List.perm_insertionSort moLe
    ((rows.filter (updateMatches cid first.contact first.sessionName now)).map
      (fun d => { d with status := DStatus.processing, updatedAt := stamp }))
  have hbatchpw : (List.insertionSort moLe
      ((rows.filter (updateMatches cid first.contact first.sessionName now)).map
        (fun d => { d with status := DStatus.processing, updatedAt := stamp }))).Pairwise
      (fun a b => a.messageOrder < b.messageOrder) := by
    have hle := List.sorted_insertionSort moLe
      ((rows.filter (updateMatches cid first.contact first.sessionName now)).map
        (fun d => { d with status := DStatus.processing, updatedAt := stamp }))
    have hne2 := (hperm.pairwise_iff (fun {a b} h => Ne.symm h)).mpr hXne
    exact (hle.and hne2).imp fun hab => lt_of_le_of_ne hab.1 hab.2
  have hids : (List.insertionSort moLe
        ((rows.filter (updateMatches cid first.contact first.sessionName now)).map
          (fun d => { d with status := DStatus.processing, updatedAt := stamp }))).map
        (·.id)
      |>.Perm ((rows.filter
          (updateMatches cid first.contact first.sessionName now)).map (·.id)) := by
    have h1 := hperm.map (·.id)
    have h2 : ((rows.filter
          (updateMatches cid first.contact first.sessionName now)).map
            (fun d => { d with status := DStatus.processing, updatedAt := stamp })).map
          (·.id)
        = (rows.filter
            (updateMatches cid first.contact first.sessionName now)).map (·.id) := by
      rw [List.map_map]
      exact List.map_congr_left fun d _ => rfl
    rw [h2] at h1
    exact h1
  refine ⟨first, _, by rw [hcnb, hfin], hfr, hfm, hmin, rfl, rfl, ?_, ?_, ?_⟩
  · rw [show ({ contact := first.contact
                sessionName := first.sessionName
                contactData := contacts.find? fun c => decide (c.phone = first.contact)
                batch := readBatch cid first.contact first.sessionName claimTime
                  (claimUpdate cid first.contact first.sessionName now stamp
                    rows).1 } : Claim).batch
        = readBatch cid first.contact first.sessionName claimTime
            (claimUpdate cid first.contact first.sessionName now stamp rows).1
      from rfl, hbatch]
    exact hbatchpw
  · rw [show ({ contact := first.contact
                sessionName := first.sessionName
                contactData := contacts.find? fun c => decide (c.phone = first.contact)
                batch := readBatch cid first.contact first.sessionName claimTime
                  (claimUpdate cid first.contact first.sessionName now stamp
                    rows).1 } : Claim).batch
        = readBatch cid first.contact first.sessionName claimTime
            (claimUpdate cid first.contact first.sessionName now stamp rows).1
      from rfl, hbatch]
    exact hids
  · intro outcomes rows2
    rw [sendBatch_eq]

/-- Witness for C2: a two-row table holding the contact's messages 2
and 1 (in that table order); the claim picks the ascending-first row
and returns the batch in increasing `messageOrder`. -/
theorem claim2_claim_order_witness :
    ∃ first cl,
      (claimNextContactBatch 7 100 100 100 [] [sampleRow2, sampleRow]).1 = some cl
      ∧ first ∈ [sampleRow2, sampleRow] ∧ claimMatches 7 100 first = true
      ∧ (∀ d ∈ [sampleRow2, sampleRow],
          claimMatches 7 100 d = true → keyLt d first = false)
      ∧ cl.contact = first.contact
      ∧ cl.sessionName = first.sessionName
      ∧ cl.batch.Pairwise (fun a b => a.messageOrder < b.messageOrder)
      ∧ (cl.batch.map (·.id)).Perm
          (([sampleRow2, sampleRow].filter
              (updateMatches 7 first.contact first.sessionName 100)).map (·.id))
      ∧ (∀ (outcomes : Nat → SendOutcome) (rows2 : List Dispatch),
          (sendBatch outcomes cl.batch rows2).2 = cl.batch.map (·.id)) :=
  claim2_claim_order 7 100 100 100 [] [sampleRow2, sampleRow]
    (by decide) (by decide) (by decide)
    (by
      refine List.Pairwise.cons ?_ (List.pairwise_singleton _ _)
      intro d hd
      rcases List.mem_singleton.mp hd with rfl
      decide)
